/-
  Verification development for the orchestrated-aroma-cli repository.

  Shallow embedding of the orchestration core (query classification guard,
  research subroutine, quality-judge loop, session memory) and of the
  PubTator tool client/server adapter, together with theorems settling the
  frozen claims about the natural-language specification.

  External effects (LLM agent runs, HTTP, the file system, the rate limiter)
  are modelled as explicit function parameters or Option-valued inputs; the
  control flow, string handling and data shapes are translated directly from
  the TypeScript source.
-/
import Mathlib

/-! ## JavaScript string primitives

Executable models of the JS string operations the source relies on
(`String.prototype.startsWith`, `trim`, the `x || y` idiom on possibly
undefined strings, and the two digit-run regular expressions). -/

/-- JS word character, as used by the regex `\b` boundary: `[A-Za-z0-9_]`. -/
def isWordChar (c : Char) : Bool := c.isAlphanum || c == '_'

/-- Boolean predicate over an optional value; `none` counts as satisfied.
Used for the "character before / after the match, when present" boundary
conditions of the regexes. -/
def optAllB {α : Type} (p : α → Bool) : Option α → Bool
  | none => true
  | some a => p a

/-- Splits off the maximal leading run of decimal digits. -/
def takeDigitRun : List Char → List Char × List Char
  | [] => ([], [])
  | c :: cs =>
    if c.isDigit then
      let p := takeDigitRun cs
      (c :: p.1, p.2)
    else
      ([], c :: cs)

/-- Left-to-right scan implementing the JS regex `\b(\d{lo,hi})\b` used by
the source (with `lo,hi = 7,9` in `classifyQuery` and `6,8` in the
orchestrator's specialist heuristic).  `prevWord` records whether the
character just before the current position is a word character, so the
leading `\b` holds exactly when `prevWord = false` at a digit.  Because the
pattern body is all digits (word characters), a greedy match of length `k`
succeeds only when `k` is the full maximal digit run, so the scan inspects
each maximal run once; this mirrors the engine's leftmost-match semantics. -/
def findRunAux (lo hi : Nat) : Bool → List Char → Option (List Char)
  | _, [] => none
  | prevWord, c :: cs =>
    if !prevWord && c.isDigit then
      let run := (takeDigitRun (c :: cs)).1
      let rest := (takeDigitRun (c :: cs)).2
      if lo ≤ run.length ∧ run.length ≤ hi ∧ optAllB (fun d => !isWordChar d) rest.head? = true then
        some run
      else
        findRunAux lo hi (isWordChar c) cs
    else
      findRunAux lo hi (isWordChar c) cs

/-- First standalone digit run of length between `lo` and `hi` in a string:
the value of `s.match(/\b(\d{lo,hi})\b/)?.[1]`. -/
def firstStandaloneRun (lo hi : Nat) (s : String) : Option String :=
  (findRunAux lo hi false s.data).map (fun l => String.mk l)

/-- `listStarts pat l` holds when `pat` is a leading segment of `l`. -/
def listStarts : List Char → List Char → Bool
  | [], _ => true
  | _ :: _, [] => false
  | p :: ps, c :: cs => p == c && listStarts ps cs

/-- Model of `s.startsWith(pat)`. -/
def jsStartsWith (s pat : String) : Bool := listStarts pat.data s.data

/-- JS whitespace recognised by `String.prototype.trim` (the subset that
can occur in the source's strings). -/
def isJsWhitespace (c : Char) : Bool :=
  c == ' ' || c == '\n' || c == '\t' || c == '\r'

/-- Model of `s.trim()`. -/
def jsTrim (s : String) : String :=
  String.mk (((s.data.dropWhile isJsWhitespace).reverse.dropWhile isJsWhitespace).reverse)

/-- Model of the JS idiom `x || d` where `x : string | undefined`:
yields `d` when `x` is `undefined` or the empty string (both falsy). -/
def jsOr (x : Option String) (d : String) : String :=
  match x with
  | none => d
  | some s => if s = "" then d else s

/-! ## Query classification guard

From `src/features/query-guardrail/query-classification.guard.ts` and the
schemas in `query-classification.schema.ts` / `language-detection.schema.ts`.
The language-detection agent call is abstracted as a function returning
`none` when the agent fails to produce a parseable structured output. -/

/-- Structured output of the language detection agent
(`LanguageDetectionResultSchema`). -/
structure LangResult where
  language : String
  isEnglish : Bool
deriving DecidableEq

/-- The three query types of `QueryClassificationSchema`. -/
inductive QueryType where
  | pmid_details
  | biomedical_search
  | general_question
deriving DecidableEq

/-- Classification record (`QueryClassificationSchema`).  The JS numbers
0.5 and 0.95 for `confidence` are modelled as exact rationals. -/
structure QueryClassification where
  queryType : QueryType
  extractedPMID : Option String
  needsTranslation : Bool
  detectedLanguage : String
  confidence : ℚ
deriving DecidableEq

/-- The greeting alternatives of the regex
`/\b(hello|hi|help|what can you|how are you)\b/i`. -/
def greetingPhrases : List (List Char) :=
  ["hello".data, "hi".data, "help".data, "what can you".data, "how are you".data]

/-- Case-insensitive literal match of `pat` at the head of `l`; on success
returns the remainder of `l`. -/
def matchPhraseCI : List Char → List Char → Option (List Char)
  | [], rest => some rest
  | _ :: _, [] => none
  | p :: ps, c :: cs => if p.toLower == c.toLower then matchPhraseCI ps cs else none

/-- Does some greeting phrase match at the current position, with a word
boundary after it? -/
def greetingAt (l : List Char) : Bool :=
  greetingPhrases.any fun ph =>
    match matchPhraseCI ph l with
    | some rest => optAllB (fun d => !isWordChar d) rest.head?
    | none => false

/-- Scan for `/\b(hello|hi|help|what can you|how are you)\b/i.test(q)`:
some position has a word boundary before it and a greeting phrase (with
trailing boundary) starting there. -/
def hasGreeting : Bool → List Char → Bool
  | _, [] => false
  | prevWord, c :: cs =>
    (!prevWord && greetingAt (c :: cs)) || hasGreeting (isWordChar c) cs

/-- `classifyQuery` from `query-classification.guard.ts`.  Stage 1 is the
local PMID regex and greeting test; stage 2 is the language-detection agent
call, abstracted as `langDetect` (`none` models a missing or unparseable
`finalOutput`, the code path that logs and falls back to English). -/
def classifyQuery (langDetect : String → Option LangResult) (userQuery : String) :
    QueryClassification :=
  let extractedPMID := firstStandaloneRun 7 9 userQuery
  let queryType : QueryType :=
    if extractedPMID.isSome then QueryType.pmid_details
    else if hasGreeting false userQuery.data then QueryType.general_question
    else QueryType.biomedical_search
  match langDetect userQuery with
  | none =>
    { queryType := queryType
      extractedPMID := extractedPMID
      needsTranslation := false
      detectedLanguage := "English"
      confidence := 1/2 }
  | some langResult =>
    { queryType := queryType
      extractedPMID := extractedPMID
      needsTranslation := !langResult.isEnglish
      detectedLanguage := langResult.language
      confidence := 19/20 }

/-- Specification-side notion of a standalone 7-to-9-digit (in general,
`lo`-to-`hi`-digit) numeric token inside a query: a maximal digit run of
admissible length whose neighbouring characters, when present, are not word
characters.  Declared independently of the scanner so that claims about
"queries containing a standalone token" quantify over this predicate and
are then related to the source's regex by the lemmas below. -/
def IsStandaloneRun (lo hi : Nat) (q t : String) : Prop :=
  ∃ pre post : List Char,
    q.data = pre ++ (t.data ++ post) ∧
    t.data ≠ [] ∧
    t.data.all (fun c => c.isDigit) = true ∧
    lo ≤ t.data.length ∧
    t.data.length ≤ hi ∧
    optAllB (fun c => !isWordChar c) pre.getLast? = true ∧
    optAllB (fun c => !isWordChar c) post.head? = true

/-! ## Session memory

From `src/core/session-memory.ts`.  The file system read and `JSON.parse`
are abstracted: `fileContents = none` models a failed `fs.readFile`
(absent or unreadable file); `parse s = none` models `JSON.parse` throwing
on corrupted contents.  Both land in the same `catch` in the source. -/

/-- The `OrchestrationMemory` interface. -/
structure OrchestrationMemory where
  conversationId : String
  sessionStarted : String
  totalInteractions : Nat
  conversationHistory : List String
  lastRunState : Option String
deriving DecidableEq

/-- The fresh session object built in the `catch` branch of
`loadOrchestrationMemory`; `nowMs` stands for `Date.now()` and `nowIso`
for `new Date().toISOString()`. -/
def freshMemory (nowMs : Nat) (nowIso : String) : OrchestrationMemory :=
  { conversationId := "session_" ++ toString nowMs
    sessionStarted := nowIso
    totalInteractions := 0
    conversationHistory := []
    lastRunState := none }

/-- `loadOrchestrationMemory`: read the memory file, parse it, and on any
failure fall back to a fresh session. -/
def loadOrchestrationMemory (fileContents : Option String)
    (parse : String → Option OrchestrationMemory) (nowMs : Nat) (nowIso : String) :
    OrchestrationMemory :=
  match fileContents with
  | some data =>
    match parse data with
    | some memory => memory
    | none => freshMemory nowMs nowIso
  | none => freshMemory nowMs nowIso

/-! ## Research subroutine

From `src/core/orchestrator.ts` (`executeResearchSubroutine`).  Each agent
run (`run(agent, input)`) is abstracted as a function from the input string
to a `RunResult`; the subroutine's own control flow — classification,
conditional translation, the triage front desk, the `SPECIALIST_REQUEST:`
protocol, specialist selection by the 6-to-8-digit heuristic, history
merging and the memory update — is translated directly.  The intermediate
values of the source are factored into named stage definitions so theorems
can refer to them. -/

/-- Abstraction of the `RunResult` the agents SDK returns: the final
output (possibly absent), the run history entries (opaque here), and the
serialized resumable run state. -/
structure RunResult where
  finalOutput : Option String
  history : List String
  state : String
deriving DecidableEq

/-- The stubbed collaborators of one research pass: the language-detection
agent, the translator, the triage front desk, and the two specialists. -/
structure AgentEnv where
  langDetect : String → Option LangResult
  translator : String → RunResult
  triage : String → RunResult
  pmidSpecialist : String → RunResult
  searchSpecialist : String → RunResult

/-- The two specialist behaviors. -/
inductive SpecialistKind where
  | pmidDetails
  | biomedicalSearch
deriving DecidableEq

/-- The marker the triage agent uses to request a specialist. -/
def specialistMarker : String := "SPECIALIST_REQUEST:"

/-- Stage 2 of the subroutine: the possibly translated query
(`finalQuery` in the source; empty or absent translator output falls back
to the original query). -/
def finalQueryOf (env : AgentEnv) (q : String) : String :=
  if (classifyQuery env.langDetect q).needsTranslation then
    jsOr (env.translator q).finalOutput q
  else q

/-- The `UserLanguage:` line prepended to every triage input. -/
def langLineOf (env : AgentEnv) (q : String) : String :=
  "UserLanguage: " ++ (classifyQuery env.langDetect q).detectedLanguage ++ "\n"

/-- Input of the first triage pass. -/
def triageInput1 (env : AgentEnv) (q : String) : String :=
  langLineOf env q ++ finalQueryOf env q

/-- `triageFirst` in the source. -/
def triageFirstOf (env : AgentEnv) (q : String) : RunResult :=
  env.triage (triageInput1 env q)

/-- `triageOutput` right after the first pass (`finalOutput || ''`). -/
def triageOutput1 (env : AgentEnv) (q : String) : String :=
  jsOr (triageFirstOf env q).finalOutput ""

/-- `specialistQuery`: the first triage output with the marker removed and
trimmed (only meaningful under the marker guard). -/
def specialistQueryOf (env : AgentEnv) (q : String) : String :=
  jsTrim (String.mk ((triageOutput1 env q).data.drop specialistMarker.data.length))

/-- Specialist selection: the source tests `/\b\d{6,8}\b/` against the
specialist query. -/
def specialistKindOf (env : AgentEnv) (q : String) : SpecialistKind :=
  if (firstStandaloneRun 6 8 (specialistQueryOf env q)).isSome then
    SpecialistKind.pmidDetails
  else
    SpecialistKind.biomedicalSearch

/-- `specialistRun` in the source. -/
def specialistRunOf (env : AgentEnv) (q : String) : RunResult :=
  match specialistKindOf env q with
  | SpecialistKind.pmidDetails => env.pmidSpecialist (specialistQueryOf env q)
  | SpecialistKind.biomedicalSearch => env.searchSpecialist (specialistQueryOf env q)

/-- `specialistFindings` (`finalOutput || 'No specialist findings.'`). -/
def findingsOf (env : AgentEnv) (q : String) : String :=
  jsOr (specialistRunOf env q).finalOutput "No specialist findings."

/-- The second triage pass, fed the specialist findings. -/
def triageSecondOf (env : AgentEnv) (q : String) : RunResult :=
  env.triage (langLineOf env q ++ "Here are the specialist findings:\n\n" ++ findingsOf env q)

/-- `triageOutput` after the second pass (`finalOutput || triageOutput`). -/
def triageOutput2 (env : AgentEnv) (q : String) : String :=
  jsOr (triageSecondOf env q).finalOutput (triageOutput1 env q)

/-- Result record of one research pass: the textual result, the updated
memory, the merged run history and resumable state of the returned
`runResult`, and (instrumentation for the routing claims) which
specialist, if any, was consulted. -/
structure SubroutineOut where
  result : String
  memory : OrchestrationMemory
  runHistory : List String
  runState : String
  specialistInvoked : Option SpecialistKind
deriving DecidableEq

/-- `executeResearchSubroutine` from `src/core/orchestrator.ts`. -/
def executeResearchSubroutine (env : AgentEnv) (userQuery : String)
    (memory : OrchestrationMemory) : SubroutineOut :=
  if jsStartsWith (triageOutput1 env userQuery) specialistMarker then
    let mergedHistory :=
      (triageFirstOf env userQuery).history ++ (specialistRunOf env userQuery).history ++
        (triageSecondOf env userQuery).history
    { result :=
        if triageOutput2 env userQuery = "" then "No results found."
        else triageOutput2 env userQuery
      memory :=
        { memory with
          totalInteractions := memory.totalInteractions + 1
          conversationHistory := mergedHistory }
      runHistory := mergedHistory
      runState := (triageFirstOf env userQuery).state
      specialistInvoked := some (specialistKindOf env userQuery) }
  else
    { result :=
        if triageOutput1 env userQuery = "" then "No results found."
        else triageOutput1 env userQuery
      memory :=
        { memory with
          totalInteractions := memory.totalInteractions + 1
          conversationHistory := (triageFirstOf env userQuery).history }
      runHistory := (triageFirstOf env userQuery).history
      runState := (triageFirstOf env userQuery).state
      specialistInvoked := none }

/-! ## Quality judge loop

From `src/features/quality-judge/judge.orchestrator.ts`
(`executeJudgeSubroutine`, the canonical loop defining `MAX_ATTEMPTS`).
The research subroutine and the judge agent are abstracted as functions of
the attempt number and of the current query / latest result; the loop's
counter, the `PASS` check, the feedback-augmented retry query and the
returned last result are translated directly.  The `results` field records
the research results produced, in order (instrumentation for the
termination claim); the structural `fuel` argument of the worker equals
`MAX_ATTEMPTS - attempts`, mirroring the `while (attempts < MAX_ATTEMPTS)`
guard. -/

/-- The attempt bound of the judge loop. -/
def MAX_ATTEMPTS : Nat := 3

/-- Terminal value of the judge loop. -/
structure JudgeLoopResult where
  result : String
  attemptsUsed : Nat
  results : List String
deriving DecidableEq

/-- Worker of `executeJudgeSubroutine`: one call per loop iteration. -/
def judgeLoopGo (research judge : Nat → String → String) :
    Nat → Nat → String → String → List String → JudgeLoopResult
  | 0, attempts, _query, lastResult, acc =>
    { result := lastResult, attemptsUsed := attempts, results := acc.reverse }
  | fuel + 1, attempts, query, _lastResult, acc =>
    let res := research (attempts + 1) query
    let critique := judge (attempts + 1) res
    if jsStartsWith critique "PASS" then
      { result := res, attemptsUsed := attempts + 1, results := (res :: acc).reverse }
    else
      judgeLoopGo research judge fuel (attempts + 1)
        (query ++ "\n\n[Retry Feedback]: " ++ critique) res (res :: acc)

/-- `executeJudgeSubroutine`: run the research subroutine up to
`MAX_ATTEMPTS` times, stopping early when the judge critique starts with
`PASS`, otherwise retrying with the critique appended to the query. -/
def executeJudgeSubroutine (research judge : Nat → String → String)
    (userQuery : String) : JudgeLoopResult :=
  judgeLoopGo research judge MAX_ATTEMPTS 0 userQuery "" []

/-! ## PubTator tool client and server adapter

From `src/old-project/pubtator-mcp-server.md`.  The client functions are
modelled by the URL of the single rate-limited HTTP GET they issue; an
`Except.error` is a throw that happens before `rateLimitedRequest` is
reached, hence before any HTTP request and before any rate-limiter token
is consumed (`removeTokens(1)` is the first statement of
`rateLimitedRequest`). -/

/-- The PubTator3 API base URL. -/
def PUBTATOR_BASE_URL : String := "https://www.ncbi.nlm.nih.gov/research/pubtator3-api"

/-- `xs.flatten(',')`. -/
def joinWith (sep : String) : List String → String
  | [] => ""
  | [x] => x
  | x :: y :: xs => x ++ sep ++ joinWith sep (y :: xs)

/-- Characters `encodeURIComponent` leaves unescaped. -/
def isUnreservedURIChar (c : Char) : Bool :=
  c.isAlphanum || c == '-' || c == '_' || c == '.' || c == '!' || c == '~' ||
    c == '*' || c == Char.ofNat 39 || c == '(' || c == ')'

/-- Upper-case hexadecimal digit. -/
def hexDigitChar (n : Nat) : Char :=
  if n < 10 then Char.ofNat (48 + n) else Char.ofNat (55 + n)

/-- UTF-8 bytes of a code point. -/
def utf8BytesOfCode (n : Nat) : List Nat :=
  if n < 128 then [n]
  else if n < 2048 then [192 + n / 64, 128 + n % 64]
  else if n < 65536 then [224 + n / 4096, 128 + (n / 64) % 64, 128 + n % 64]
  else [240 + n / 262144, 128 + (n / 4096) % 64, 128 + (n / 64) % 64, 128 + n % 64]

/-- Percent-encoding of one character. -/
def percentEncodeChar (c : Char) : List Char :=
  ((utf8BytesOfCode c.toNat).map fun b => ['%', hexDigitChar (b / 16), hexDigitChar (b % 16)]).flatten

/-- Model of JS `encodeURIComponent`. -/
def encodeURIComponent (s : String) : String :=
  String.mk ((s.data.map fun c => if isUnreservedURIChar c then [c] else percentEncodeChar c).flatten)

/-- URL built by `pubtatorClient.findEntity(query, concept?, limit)`.
The JS signature declares the default parameter `limit: number = 10`, so
an absent `limit` argument becomes 10; `if (limit)` then skips the query
parameter only for the falsy value 0. -/
def findEntityUrl (query : String) (concept : Option String) (limit : Option Nat) : String :=
  let l := limit.getD 10
  PUBTATOR_BASE_URL ++ "/entity/autocomplete/?query=" ++ encodeURIComponent query ++
    (match concept with
     | some c => "&concept=" ++ encodeURIComponent c
     | none => "") ++
    (if l ≠ 0 then "&limit=" ++ toString l else "")

/-- The default the `tools/list` catalog advertises for the `limit`
argument of `find_entity` (`inputSchema.properties.limit.default`). -/
def findEntityCatalogDefault : Nat := 5

/-- URL of the PMID export branch of `getPaperText`. -/
def pmidExportUrl (format : String) (ps : List String) (full : Bool) : String :=
  PUBTATOR_BASE_URL ++ "/publications/export/" ++ format ++ "?pmids=" ++ joinWith "," ps ++
    (if full then "&full=true" else "")

/-- URL of the PMC export branch of `getPaperText`. -/
def pmcExportUrl (format : String) (cs : List String) : String :=
  PUBTATOR_BASE_URL ++ "/publications/pmc_export/" ++ format ++ "?pmcids=" ++ joinWith "," cs

/-- JS truthiness of `x && x.length > 0` for an optional array. -/
def optNonempty : Option (List String) → Bool
  | some l => !l.isEmpty
  | none => false

/-- Argument validation and request construction of
`pubtatorClient.getPaperText(pmids?, pmcids?, format, full)`:
`Except.error` models the two `throw new Error(...)` sites, both reached
before `rateLimitedRequest`; `Except.ok url` models the single
rate-limited GET to `url`. -/
def getPaperText (pmids pmcids : Option (List String)) (format : String) (full : Bool) :
    Except String String :=
  if pmids.isNone && pmcids.isNone then
    Except.error "Either pmids or pmcids must be provided"
  else if optNonempty pmids then
    Except.ok (pmidExportUrl format (pmids.getD []) full)
  else if optNonempty pmcids then
    Except.ok (pmcExportUrl format (pmcids.getD []))
  else
    Except.error "Either pmids or pmcids must be provided"

/-- The rate-limited HTTP requests a `getPaperText` call issues (each one
consumes exactly one limiter token first). -/
def getPaperTextRequests (pmids pmcids : Option (List String)) (format : String)
    (full : Bool) : List String :=
  match getPaperText pmids pmcids format full with
  | Except.ok url => [url]
  | Except.error _ => []

/-- A Tool Client invocation as dispatched by the `tools/call` handler;
argument fields stay optional because the JS code forwards possibly
undefined `params.arguments` members unchanged. -/
inductive ClientOp where
  | findEntityOp (query : Option String) (concept : Option String) (limit : Option Nat)
  | searchPubtatorOp (query : Option String) (limit : Option Nat)
  | getPaperTextOp (pmids pmcids : Option (List String)) (format : Option String)
      (full : Option Bool)
  | findRelatedOp (entityId : Option String) (relationType targetType : Option String)
deriving DecidableEq

/-- The `arguments` object of a `tools/call` request. -/
structure ToolArgs where
  query : Option String := none
  concept : Option String := none
  limit : Option Nat := none
  pmids : Option (List String) := none
  pmcids : Option (List String) := none
  format : Option String := none
  full : Option Bool := none
  entityId : Option String := none
  relationType : Option String := none
  targetType : Option String := none
deriving DecidableEq

/-- A JSON-RPC reply of the server: either the text-content success
payload or the error object with its application error code. -/
inductive JsonRpcReply where
  | success (id : Nat) (text : String)
  | rpcError (id : Nat) (code : Int) (message : String)
deriving DecidableEq

/-- The `tools/call` branch of `startMCPServer`: dispatch on the tool
name, run the matching client operation (abstracted by the `client`
oracle, whose `Except.error` is a thrown client failure), and format the
reply; an unknown name throws `Unknown tool: <name>`, caught by the same
`catch` that emits the fixed error code -32000.  The second component
lists the Tool Client operations performed. -/
def handleToolsCall (client : ClientOp → Except String String) (id : Nat)
    (name : String) (args : ToolArgs) : JsonRpcReply × List ClientOp :=
  let dispatch : Option ClientOp :=
    if name = "find_entity" then
      some (ClientOp.findEntityOp args.query args.concept args.limit)
    else if name = "search_pubtator" then
      some (ClientOp.searchPubtatorOp args.query args.limit)
    else if name = "get_paper_text" then
      some (ClientOp.getPaperTextOp args.pmids args.pmcids args.format args.full)
    else if name = "find_related_entities" then
      some (ClientOp.findRelatedOp args.entityId args.relationType args.targetType)
    else none
  match dispatch with
  | none => (JsonRpcReply.rpcError id (-32000) ("Unknown tool: " ++ name), [])
  | some op =>
    match client op with
    | Except.ok text => (JsonRpcReply.success id text, [op])
    | Except.error msg => (JsonRpcReply.rpcError id (-32000) msg, [op])

/-! ## Concrete stubs used by witnesses and counterexamples -/

/-- Effective wordness of the character just before the current scan
position, after consuming `pre` starting from boundary flag `prevW`. -/
def effPrev (pre : List Char) (prevW : Bool) : Bool :=
  match pre.getLast? with
  | none => prevW
  | some c => isWordChar c

/-- Shorthand for building stub agent run results. -/
def stubRun (o : Option String) (h : List String) (st : String) : RunResult :=
  { finalOutput := o, history := h, state := st }

/-- Environment whose triage front desk answers directly (no specialist
request); its run state is the fresh token "fresh". -/
def envNoSpecialist : AgentEnv :=
  { langDetect := fun _ => some { language := "English", isEnglish := true }
    translator := fun _ => stubRun none [] ""
    triage := fun _ => stubRun (some "All done") ["turn1"] "fresh"
    pmidSpecialist := fun _ => stubRun (some "p") [] ""
    searchSpecialist := fun _ => stubRun (some "s") [] "" }

/-- Environment whose triage requests a specialist with a digit-free
query, so the 6-to-8-digit heuristic picks the search specialist. -/
def envSearchRoute : AgentEnv :=
  { langDetect := fun _ => some { language := "English", isEnglish := true }
    translator := fun _ => stubRun none [] ""
    triage := fun _ => stubRun (some "SPECIALIST_REQUEST: lavender anxiety info") ["t1"] "s1"
    pmidSpecialist := fun _ => stubRun (some "pmid findings") ["p1"] "sp"
    searchSpecialist := fun _ => stubRun (some "search findings") ["s1"] "ss" }

/-- Environment whose triage produces no output at all. -/
def envEmptyTriage : AgentEnv :=
  { langDetect := fun _ => none
    translator := fun _ => stubRun none [] ""
    triage := fun _ => stubRun none [] ""
    pmidSpecialist := fun _ => stubRun none [] ""
    searchSpecialist := fun _ => stubRun none [] "" }

/-- A session carrying a stale resumable token from an earlier run. -/
def memStale : OrchestrationMemory :=
  { conversationId := "cid"
    sessionStarted := "t0"
    totalInteractions := 5
    conversationHistory := ["old"]
    lastRunState := some "stale" }

/-- A judge stub that never passes anything. -/
def alwaysFailJudge : Nat → String → String := fun _ _ => "FAIL: not good enough"

/-- A research stub producing a distinct result per attempt. -/
def stubResearch : Nat → String → String := fun n _ => "result " ++ toString n

/-! ## Helper lemmas about the digit-run scanner -/

theorem isWordChar_of_isDigit {c : Char} (h : c.isDigit = true) : isWordChar c = true := by
  simp [isWordChar, Char.isAlphanum, h]

theorem not_isDigit_of_not_isWordChar {c : Char} (h : isWordChar c = false) :
    c.isDigit = false := by
  by_contra hc
  rw [isWordChar_of_isDigit (by simpa using hc)] at h
  simp at h

theorem optAllB_not_digit_of_not_word {post : List Char}
    (h : optAllB (fun c => !isWordChar c) post.head? = true) :
    optAllB (fun c => !c.isDigit) post.head? = true := by
  cases hh : post.head? with
  | none => simp [optAllB]
  | some c =>
    rw [hh] at h
    simp only [optAllB, Bool.not_eq_true'] at h ⊢
    exact not_isDigit_of_not_isWordChar h

theorem effPrev_cons (c : Char) (pre : List Char) (prevW : Bool) :
    effPrev (c :: pre) prevW = effPrev pre (isWordChar c) := by
  cases pre with
  | nil => simp [effPrev]
  | cons a as =>
    simp only [effPrev, List.getLast?_cons_cons]
    cases h : (a :: as).getLast? with
    | none => simp [List.getLast?_eq_none_iff] at h
    | some x => simp

theorem effPrev_false_of_optAllB {pre : List Char}
    (h : optAllB (fun c => !isWordChar c) pre.getLast? = true) :
    effPrev pre false = false := by
  cases hg : pre.getLast? with
  | none => simp [effPrev, hg]
  | some c =>
    rw [hg] at h
    simp only [optAllB, Bool.not_eq_true'] at h
    simp [effPrev, hg, h]

theorem optAllB_of_effPrev_false {pre : List Char} (h : effPrev pre false = false) :
    optAllB (fun c => !isWordChar c) pre.getLast? = true := by
  cases hg : pre.getLast? with
  | none => simp [optAllB]
  | some c =>
    simp only [effPrev, hg] at h
    simp [optAllB, h]

theorem takeDigitRun_append : ∀ l : List Char, (takeDigitRun l).1 ++ (takeDigitRun l).2 = l := by
  intro l
  induction l with
  | nil => rfl
  | cons c cs ih =>
    by_cases h : c.isDigit = true
    · simp [takeDigitRun, h, ih]
    · simp [takeDigitRun, h]

theorem takeDigitRun_digits : ∀ l : List Char, (takeDigitRun l).1.all (fun c => c.isDigit) = true := by
  intro l
  induction l with
  | nil => rfl
  | cons c cs ih =>
    by_cases h : c.isDigit = true
    · simp [takeDigitRun, h, ih]
    · simp [takeDigitRun, h]

theorem takeDigitRun_rest_head : ∀ l : List Char,
    optAllB (fun c => !c.isDigit) (takeDigitRun l).2.head? = true := by
  intro l
  induction l with
  | nil => rfl
  | cons c cs ih =>
    by_cases h : c.isDigit = true
    · simpa [takeDigitRun, h] using ih
    · simp [takeDigitRun, h, optAllB]

theorem takeDigitRun_eq_of : ∀ (t post : List Char),
    t.all (fun c => c.isDigit) = true →
    optAllB (fun c => !c.isDigit) post.head? = true →
    takeDigitRun (t ++ post) = (t, post) := by
  intro t
  induction t with
  | nil =>
    intro post _ hp
    cases post with
    | nil => rfl
    | cons d ds =>
      simp only [optAllB, List.head?_cons, Bool.not_eq_true'] at hp
      simp [takeDigitRun, hp]
  | cons c cs ih =>
    intro post ht hp
    simp only [List.all_cons, Bool.and_eq_true] at ht
    simp [takeDigitRun, ht.1, ih post ht.2 hp]

theorem findRunAux_isSome (lo hi : Nat) (t post : List Char)
    (hne : t ≠ []) (hdig : t.all (fun c => c.isDigit) = true)
    (hlo : lo ≤ t.length) (hhi : t.length ≤ hi)
    (hpost : optAllB (fun c => !isWordChar c) post.head? = true) :
    ∀ (pre : List Char) (prevW : Bool), effPrev pre prevW = false →
      (findRunAux lo hi prevW (pre ++ (t ++ post))).isSome = true := by
  intro pre
  induction pre with
  | nil =>
    intro prevW hprev
    have hprevW : prevW = false := by simpa [effPrev] using hprev
    cases t with
    | nil => exact absurd rfl hne
    | cons c cs =>
      have hc : c.isDigit = true := by
        simp only [List.all_cons, Bool.and_eq_true] at hdig
        exact hdig.1
      have htd : takeDigitRun ((c :: cs) ++ post) = (c :: cs, post) :=
        takeDigitRun_eq_of (c :: cs) post hdig (optAllB_not_digit_of_not_word hpost)
      simp only [List.nil_append, List.cons_append] at *
      simp only [findRunAux, hprevW, hc, Bool.not_false, Bool.and_self, if_true]
      rw [if_pos]
      · simp
      · refine ⟨?_, ?_, ?_⟩
        · rw [htd]; exact hlo
        · rw [htd]; exact hhi
        · rw [htd]; exact hpost
  | cons p pre' ih =>
    intro prevW hprev
    have hprev' : effPrev pre' (isWordChar p) = false := by
      rw [← effPrev_cons p pre' prevW]; exact hprev
    simp only [List.cons_append]
    simp only [findRunAux]
    by_cases hb : (!prevW && p.isDigit) = true
    · rw [if_pos hb]
      by_cases hcond :
          lo ≤ ((takeDigitRun (p :: (pre' ++ (t ++ post)))).1).length ∧
            ((takeDigitRun (p :: (pre' ++ (t ++ post)))).1).length ≤ hi ∧
            optAllB (fun d => !isWordChar d)
              ((takeDigitRun (p :: (pre' ++ (t ++ post)))).2).head? = true
      · rw [if_pos hcond]; simp
      · rw [if_neg hcond]; exact ih (isWordChar p) hprev'
    · rw [if_neg hb]; exact ih (isWordChar p) hprev'

theorem findRunAux_sound (lo hi : Nat) :
    ∀ (s : List Char) (prevW : Bool) (r : List Char),
      findRunAux lo hi prevW s = some r →
      ∃ pre post : List Char,
        s = pre ++ (r ++ post) ∧ r ≠ [] ∧ r.all (fun c => c.isDigit) = true ∧
        lo ≤ r.length ∧ r.length ≤ hi ∧ effPrev pre prevW = false ∧
        optAllB (fun c => !isWordChar c) post.head? = true := by
  intro s
  induction s with
  | nil => intro prevW r h; simp [findRunAux] at h
  | cons c cs ih =>
    intro prevW r h
    simp only [findRunAux] at h
    by_cases hb : (!prevW && c.isDigit) = true
    · rw [if_pos hb] at h
      by_cases hcond :
          lo ≤ ((takeDigitRun (c :: cs)).1).length ∧
            ((takeDigitRun (c :: cs)).1).length ≤ hi ∧
            optAllB (fun d => !isWordChar d) ((takeDigitRun (c :: cs)).2).head? = true
      · rw [if_pos hcond] at h
        have hr : r = (takeDigitRun (c :: cs)).1 := by
          injection h with h2
          exact h2.symm
        have hprevW : prevW = false := by
          rcases Bool.and_eq_true _ _ |>.mp hb with ⟨h1, _⟩
          simpa using h1
        have hcd : c.isDigit = true := (Bool.and_eq_true _ _ |>.mp hb).2
        refine ⟨[], (takeDigitRun (c :: cs)).2, ?_, ?_, ?_, ?_, ?_, ?_, ?_⟩
        · rw [hr, List.nil_append, takeDigitRun_append]
        · rw [hr]; simp [takeDigitRun, hcd]
        · rw [hr]; exact takeDigitRun_digits (c :: cs)
        · rw [hr]; exact hcond.1
        · rw [hr]; exact hcond.2.1
        · simp [effPrev, hprevW]
        · exact hcond.2.2
      · rw [if_neg hcond] at h
        obtain ⟨pre', post', hs, h1, h2, h3, h4, h5, h6⟩ := ih (isWordChar c) r h
        exact ⟨c :: pre', post', by rw [List.cons_append, hs], h1, h2, h3, h4,
          by rw [effPrev_cons]; exact h5, h6⟩
    · rw [if_neg hb] at h
      obtain ⟨pre', post', hs, h1, h2, h3, h4, h5, h6⟩ := ih (isWordChar c) r h
      exact ⟨c :: pre', post', by rw [List.cons_append, hs], h1, h2, h3, h4,
        by rw [effPrev_cons]; exact h5, h6⟩

theorem firstStandaloneRun_isSome_of {lo hi : Nat} {q t : String}
    (h : IsStandaloneRun lo hi q t) : (firstStandaloneRun lo hi q).isSome = true := by
  obtain ⟨pre, post, hq, hne, hdig, hlo, hhi, hpre, hpost⟩ := h
  have hscan := findRunAux_isSome lo hi t.data post hne hdig hlo hhi hpost pre false
    (effPrev_false_of_optAllB hpre)
  rw [← hq] at hscan
  simpa [firstStandaloneRun] using hscan

theorem firstStandaloneRun_sound {lo hi : Nat} {q u : String}
    (h : firstStandaloneRun lo hi q = some u) : IsStandaloneRun lo hi q u := by
  simp only [firstStandaloneRun, Option.map_eq_some'] at h
  obtain ⟨r, hr, hu⟩ := h
  obtain ⟨pre, post, hs, h1, h2, h3, h4, h5, h6⟩ := findRunAux_sound lo hi q.data false r hr
  have hud : u.data = r := by rw [← hu]
  exact ⟨pre, post, by rw [hud]; exact hs, by rw [hud]; exact h1, by rw [hud]; exact h2,
    by rw [hud]; exact h3, by rw [hud]; exact h4, optAllB_of_effPrev_false h5, h6⟩

/-! ## Helper lemmas about the classifier and the judge loop -/

theorem classifyQuery_extractedPMID (lang : String → Option LangResult) (q : String) :
    (classifyQuery lang q).extractedPMID = firstStandaloneRun 7 9 q := by
  cases hl : lang q <;> simp [classifyQuery, hl]

theorem classifyQuery_queryType (lang : String → Option LangResult) (q : String) :
    (classifyQuery lang q).queryType =
      (if (firstStandaloneRun 7 9 q).isSome then QueryType.pmid_details
       else if hasGreeting false q.data then QueryType.general_question
       else QueryType.biomedical_search) := by
  cases hl : lang q <;> simp [classifyQuery, hl]

theorem judgeLoopGo_attempts_le (research judge : Nat → String → String) :
    ∀ (fuel attempts : Nat) (q last : String) (acc : List String),
      (judgeLoopGo research judge fuel attempts q last acc).attemptsUsed ≤ attempts + fuel := by
  intro fuel
  induction fuel with
  | zero => intro attempts q last acc; simp [judgeLoopGo]
  | succ n ihn =>
    intro attempts q last acc
    simp only [judgeLoopGo]
    by_cases hp : jsStartsWith (judge (attempts + 1) (research (attempts + 1) q)) "PASS" = true
    · rw [if_pos hp]
      show attempts + 1 ≤ attempts + (n + 1)
      omega
    · rw [if_neg hp]
      have := ihn (attempts + 1)
        (q ++ "\n\n[Retry Feedback]: " ++ judge (attempts + 1) (research (attempts + 1) q))
        (research (attempts + 1) q) (research (attempts + 1) q :: acc)
      omega

theorem judgeLoopGo_fail_spec (research judge : Nat → String → String)
    (hfail : ∀ n r, jsStartsWith (judge n r) "PASS" = false) :
    ∀ (fuel attempts : Nat) (q last : String) (acc : List String),
      (judgeLoopGo research judge fuel attempts q last acc).attemptsUsed = attempts + fuel ∧
      (judgeLoopGo research judge fuel attempts q last acc).results.length = acc.length + fuel ∧
      (1 ≤ fuel →
        (judgeLoopGo research judge fuel attempts q last acc).results.getLast? =
          some (judgeLoopGo research judge fuel attempts q last acc).result) := by
  intro fuel
  induction fuel with
  | zero =>
    intro attempts q last acc
    refine ⟨by simp [judgeLoopGo], by simp [judgeLoopGo], ?_⟩
    intro h
    omega
  | succ n ihn =>
    intro attempts q last acc
    simp only [judgeLoopGo, hfail, Bool.false_eq_true, if_false]
    rcases Nat.eq_zero_or_pos n with hn | hn
    · subst hn
      refine ⟨by simp [judgeLoopGo], by simp [judgeLoopGo], ?_⟩
      intro _
      simp [judgeLoopGo]
    · obtain ⟨g1, g2, g3⟩ := ihn (attempts + 1)
        (q ++ "\n\n[Retry Feedback]: " ++ judge (attempts + 1) (research (attempts + 1) q))
        (research (attempts + 1) q) (research (attempts + 1) q :: acc)
      refine ⟨by rw [g1]; omega, by rw [g2]; simp; omega, ?_⟩
      intro _
      exact g3 hn

/-- Characterization of the textual result of one research pass (shared
helper): the relevant triage output, with the empty string replaced by the
fixed sentinel. -/
theorem research_subroutine_result (env : AgentEnv) (q : String)
    (mem : OrchestrationMemory) :
    (executeResearchSubroutine env q mem).result =
      (if jsStartsWith (triageOutput1 env q) specialistMarker then
        (if triageOutput2 env q = "" then "No results found." else triageOutput2 env q)
      else
        (if triageOutput1 env q = "" then "No results found." else triageOutput1 env q)) := by
  cases h : jsStartsWith (triageOutput1 env q) specialistMarker <;>
    simp [executeResearchSubroutine, h]

/-! ## The claims -/

/-- C1: with an evaluator stub that never passes, the judge loop
(`executeJudgeSubroutine`) invokes the research subroutine exactly
`MAX_ATTEMPTS` times and terminates, returning the last produced result;
`MAX_ATTEMPTS` is the constant 3; and for every evaluator output sequence
the loop runs at most `MAX_ATTEMPTS` iterations. -/
theorem judge_loop_exhausts_at_max_attempts
    (research judge : Nat → String → String)
    (hfail : ∀ n r, jsStartsWith (judge n r) "PASS" = false) (q : String) :
    (executeJudgeSubroutine research judge q).attemptsUsed = MAX_ATTEMPTS ∧
    MAX_ATTEMPTS = 3 ∧
    (executeJudgeSubroutine research judge q).results.length = MAX_ATTEMPTS ∧
    (executeJudgeSubroutine research judge q).results.getLast? =
      some (executeJudgeSubroutine research judge q).result ∧
    (∀ (research2 judge2 : Nat → String → String) (q2 : String),
      (executeJudgeSubroutine research2 judge2 q2).attemptsUsed ≤ MAX_ATTEMPTS) := by
  obtain ⟨h1, h2, h3⟩ := judgeLoopGo_fail_spec research judge hfail MAX_ATTEMPTS 0 q "" []
  refine ⟨?_, rfl, ?_, ?_, ?_⟩
  · simpa [executeJudgeSubroutine] using h1
  · simpa [executeJudgeSubroutine] using h2
  · simpa [executeJudgeSubroutine] using h3 (by decide)
  · intro r2 j2 q2
    have hle := judgeLoopGo_attempts_le r2 j2 MAX_ATTEMPTS 0 q2 "" []
    simpa [executeJudgeSubroutine] using hle

/-- Witness for C1 at a concrete always-failing judge. -/
theorem judge_loop_exhausts_at_max_attempts_witness :
    (executeJudgeSubroutine stubResearch alwaysFailJudge "query").attemptsUsed = MAX_ATTEMPTS ∧
    (executeJudgeSubroutine stubResearch alwaysFailJudge "query").results.length = MAX_ATTEMPTS :=
  ⟨(judge_loop_exhausts_at_max_attempts stubResearch alwaysFailJudge
      (fun _ _ => rfl) "query").1,
   (judge_loop_exhausts_at_max_attempts stubResearch alwaysFailJudge
      (fun _ _ => rfl) "query").2.2.1⟩

/-- C2: a query containing a standalone 7-to-9-digit token is classified
`pmid_details` regardless of greeting words or of the language stage; the
extracted identifier is such a standalone token (the token itself when it
is the only one); and a non-null extracted identifier always implies the
`pmid_details` query type. -/
theorem classifyQuery_standalone_pmid
    (lang : String → Option LangResult) (q t : String)
    (h : IsStandaloneRun 7 9 q t) :
    (classifyQuery lang q).queryType = QueryType.pmid_details ∧
    (∃ u : String, (classifyQuery lang q).extractedPMID = some u ∧ IsStandaloneRun 7 9 q u) ∧
    ((∀ u : String, IsStandaloneRun 7 9 q u → u = t) →
      (classifyQuery lang q).extractedPMID = some t) ∧
    (∀ (lang2 : String → Option LangResult) (q2 : String),
      (classifyQuery lang2 q2).extractedPMID ≠ none →
      (classifyQuery lang2 q2).queryType = QueryType.pmid_details) := by
  have hsome := firstStandaloneRun_isSome_of h
  obtain ⟨u, hu⟩ := Option.isSome_iff_exists.mp hsome
  have hext := classifyQuery_extractedPMID lang q
  have hqt := classifyQuery_queryType lang q
  refine ⟨?_, ⟨u, ?_, ?_⟩, ?_, ?_⟩
  · rw [hqt, if_pos hsome]
  · rw [hext]; exact hu
  · exact firstStandaloneRun_sound hu
  · intro huniq
    rw [hext, hu, huniq u (firstStandaloneRun_sound hu)]
  · intro lang2 q2 hne
    rw [classifyQuery_extractedPMID lang2 q2] at hne
    have hsome2 : (firstStandaloneRun 7 9 q2).isSome = true :=
      Option.isSome_iff_ne_none.mpr hne
    rw [classifyQuery_queryType lang2 q2, if_pos hsome2]

/-- Witness for C2 at a query mixing a greeting word and a PMID. -/
theorem classifyQuery_standalone_pmid_witness :
    IsStandaloneRun 7 9 "hello 1234567" "1234567" ∧
    (classifyQuery (fun _ => none) "hello 1234567").queryType = QueryType.pmid_details ∧
    (classifyQuery (fun _ => none) "hello 1234567").extractedPMID = some "1234567" := by
  have hw : IsStandaloneRun 7 9 "hello 1234567" "1234567" :=
    ⟨"hello ".data, [], by decide, by decide, by decide, by decide, by decide,
      by decide, by decide⟩
  exact ⟨hw, (classifyQuery_standalone_pmid (fun _ => none) "hello 1234567" "1234567" hw).1,
    by decide⟩

/-- C3 counterexample: the query "1234567" is classified `pmid_details`,
yet with a triage front desk that requests a specialist using a digit-free
query, the search specialist — not the PMID specialist — is consulted:
specialist selection ignores the classification. -/
theorem triage_routing_ignores_classification :
    (classifyQuery envSearchRoute.langDetect "1234567").queryType = QueryType.pmid_details ∧
    (executeResearchSubroutine envSearchRoute "1234567" memStale).specialistInvoked =
      some SpecialistKind.biomedicalSearch := by
  decide

/-- C3 amended: a specialist is consulted only when the first triage
output starts with the `SPECIALIST_REQUEST:` marker, and the PMID
specialist is then selected exactly when the trimmed remainder contains a
standalone 6-to-8-digit token; the classification's query type plays no
role in the selection. -/
theorem specialist_selection_rule (env : AgentEnv) (q : String)
    (mem : OrchestrationMemory) :
    (executeResearchSubroutine env q mem).specialistInvoked =
      (if jsStartsWith (triageOutput1 env q) specialistMarker then
        some (if (firstStandaloneRun 6 8 (specialistQueryOf env q)).isSome then
          SpecialistKind.pmidDetails
        else SpecialistKind.biomedicalSearch)
      else none) := by
  cases h : jsStartsWith (triageOutput1 env q) specialistMarker <;>
    simp [executeResearchSubroutine, h, specialistKindOf]

/-- C5 counterexample: one completed research pass leaves a stale
resumable token untouched even though the run produced a fresh run state:
the subroutine does not overwrite the continuation token. -/
theorem research_subroutine_keeps_stale_token :
    (executeResearchSubroutine envNoSpecialist "any query" memStale).memory.lastRunState =
      memStale.lastRunState ∧
    (executeResearchSubroutine envNoSpecialist "any query" memStale).memory.lastRunState ≠
      some ((executeResearchSubroutine envNoSpecialist "any query" memStale).runState) := by
  decide

/-- C5 amended: every completed research pass increments
`totalInteractions` by exactly 1 and replaces `conversationHistory` with
the transcript of this invocation (triage plus specialist runs), while
`conversationId`, `sessionStarted` and the resumable `lastRunState` token
are left unchanged. -/
theorem research_subroutine_memory_frame (env : AgentEnv) (q : String)
    (mem : OrchestrationMemory) :
    (executeResearchSubroutine env q mem).memory.totalInteractions =
      mem.totalInteractions + 1 ∧
    (executeResearchSubroutine env q mem).memory.conversationId = mem.conversationId ∧
    (executeResearchSubroutine env q mem).memory.sessionStarted = mem.sessionStarted ∧
    (executeResearchSubroutine env q mem).memory.lastRunState = mem.lastRunState ∧
    (executeResearchSubroutine env q mem).memory.conversationHistory =
      (if jsStartsWith (triageOutput1 env q) specialistMarker then
        (triageFirstOf env q).history ++ (specialistRunOf env q).history ++
          (triageSecondOf env q).history
      else (triageFirstOf env q).history) := by
  cases h : jsStartsWith (triageOutput1 env q) specialistMarker <;>
    simp [executeResearchSubroutine, h]

/-- C6: the research subroutine always returns a non-empty result, and
when the triage stage produces no output it returns the fixed
"No results found." sentinel. -/
theorem research_subroutine_nonempty_result (env : AgentEnv) (q : String)
    (mem : OrchestrationMemory) :
    (executeResearchSubroutine env q mem).result ≠ "" ∧
    (triageOutput1 env q = "" →
      (executeResearchSubroutine env q mem).result = "No results found.") := by
  rw [research_subroutine_result]
  constructor
  · split_ifs with h1 h2 h3
    · decide
    · exact h2
    · decide
    · exact h3
  · intro h0
    have hs : jsStartsWith "" specialistMarker = false := by decide
    simp [h0, hs]

/-- Witness for C6 with a triage stub that produces no output. -/
theorem research_subroutine_nonempty_result_witness :
    triageOutput1 envEmptyTriage "q" = "" ∧
    (executeResearchSubroutine envEmptyTriage "q" memStale).result = "No results found." :=
  ⟨by decide,
   (research_subroutine_nonempty_result envEmptyTriage "q" memStale).2 (by decide)⟩

/-- C7: when the language-detection stage yields no parseable result, the
classifier still returns a classification, with the English fallback and
confidence 0.5; on success, confidence is 0.95 and `needsTranslation` is
the negation of the reported `isEnglish` flag. -/
theorem classifyQuery_language_fallback (lang : String → Option LangResult) (q : String) :
    (lang q = none →
      (classifyQuery lang q).needsTranslation = false ∧
      (classifyQuery lang q).detectedLanguage = "English" ∧
      (classifyQuery lang q).confidence = 1/2) ∧
    (∀ r : LangResult, lang q = some r →
      (classifyQuery lang q).confidence = 19/20 ∧
      (classifyQuery lang q).needsTranslation = !r.isEnglish) := by
  constructor
  · intro hl; simp [classifyQuery, hl]
  · intro r hl; simp [classifyQuery, hl]

/-- Witness for C7 with a failing language-detection stub. -/
theorem classifyQuery_language_fallback_witness :
    (classifyQuery (fun _ => none) "hola").needsTranslation = false ∧
    (classifyQuery (fun _ => none) "hola").detectedLanguage = "English" ∧
    (classifyQuery (fun _ => none) "hola").confidence = 1/2 :=
  (classifyQuery_language_fallback (fun _ => none) "hola").1 rfl

/-- C4 counterexample: invoking `getPaperText` with both `pmids` and
`pmcids` non-empty does not fail with `InvalidArgument`; it issues the
PMID export request (and consumes a rate-limiter token for it). -/
theorem getPaperText_both_nonempty_succeeds :
    getPaperText (some ["12345678"]) (some ["PMC123"]) "biocjson" false =
      Except.ok (pmidExportUrl "biocjson" ["12345678"] false) ∧
    getPaperTextRequests (some ["12345678"]) (some ["PMC123"]) "biocjson" false =
      [pmidExportUrl "biocjson" ["12345678"] false] :=
  ⟨rfl, rfl⟩

/-- C4 amended: `getPaperText` fails with the `InvalidArgument` error —
before any HTTP request is attempted and with no rate-limiter token
consumed — exactly when neither `pmids` nor `pmcids` is non-empty; when
`pmids` is non-empty it issues the PMID export request (regardless of
`pmcids`, which `pmids` takes precedence over), and otherwise a non-empty
`pmcids` yields the PMC export request. -/
theorem getPaperText_argument_check (pmids pmcids : Option (List String))
    (format : String) (full : Bool) :
    (optNonempty pmids = false → optNonempty pmcids = false →
      getPaperText pmids pmcids format full =
        Except.error "Either pmids or pmcids must be provided" ∧
      getPaperTextRequests pmids pmcids format full = []) ∧
    (optNonempty pmids = true →
      getPaperText pmids pmcids format full =
        Except.ok (pmidExportUrl format (pmids.getD []) full)) ∧
    (optNonempty pmids = false → optNonempty pmcids = true →
      getPaperText pmids pmcids format full =
        Except.ok (pmcExportUrl format (pmcids.getD []))) := by
  refine ⟨?_, ?_, ?_⟩
  · intro h1 h2
    have herr : getPaperText pmids pmcids format full =
        Except.error "Either pmids or pmcids must be provided" := by
      by_cases hn : (pmids.isNone && pmcids.isNone) = true
      · simp [getPaperText, hn]
      · simp [getPaperText, hn, h1, h2]
    exact ⟨herr, by simp [getPaperTextRequests, herr]⟩
  · intro h1
    have hn : (pmids.isNone && pmcids.isNone) = false := by
      cases pmids with
      | none => simp [optNonempty] at h1
      | some l => simp
    simp [getPaperText, hn, h1]
  · intro h1 h2
    have hn : (pmids.isNone && pmcids.isNone) = false := by
      cases pmcids with
      | none => simp [optNonempty] at h2
      | some l => simp
    simp [getPaperText, hn, h1, h2]

/-- Witness for the amended C4 at the neither-provided input. -/
theorem getPaperText_argument_check_witness :
    getPaperText none none "biocjson" false =
      Except.error "Either pmids or pmcids must be provided" ∧
    getPaperTextRequests none none "biocjson" false = [] :=
  (getPaperText_argument_check none none "biocjson" false).1 rfl rfl

/-- C8: a `tools/call` with a name outside the four-tool catalog replies
with the fixed application error code -32000 and the message
`Unknown tool: <name>`, performing no Tool Client operation. -/
theorem unknown_tool_rpc_error (client : ClientOp → Except String String) (id : Nat)
    (name : String) (args : ToolArgs)
    (h1 : name ≠ "find_entity") (h2 : name ≠ "search_pubtator")
    (h3 : name ≠ "get_paper_text") (h4 : name ≠ "find_related_entities") :
    handleToolsCall client id name args =
      (JsonRpcReply.rpcError id (-32000) ("Unknown tool: " ++ name), []) := by
  simp [handleToolsCall, h1, h2, h3, h4]

/-- Witness for C8 at the name "bogus_tool". -/
theorem unknown_tool_rpc_error_witness :
    handleToolsCall (fun _ => Except.ok "ok") 1 "bogus_tool" {} =
      (JsonRpcReply.rpcError 1 (-32000) ("Unknown tool: " ++ "bogus_tool"), []) :=
  unknown_tool_rpc_error (fun _ => Except.ok "ok") 1 "bogus_tool" {}
    (by decide) (by decide) (by decide) (by decide)

/-- C9: `findEntity` invoked without an explicit limit builds its outbound
request with `limit=10` — the default parameter of the client function —
while the `tools/list` catalog advertises a default of 5 for the same
argument; the two defaults disagree. -/
theorem find_entity_limit_default_bug :
    findEntityUrl "aspirin" none none =
      PUBTATOR_BASE_URL ++ "/entity/autocomplete/?query=aspirin&limit=10" ∧
    findEntityCatalogDefault = 5 ∧
    (10 : Nat) ≠ findEntityCatalogDefault := by
  refine ⟨by decide, rfl, by decide⟩

/-- C10: any failure to read or to parse the session file yields a fresh
session object with zero interactions and empty history; loading never
fails. -/
theorem loadOrchestrationMemory_total (fileContents : Option String)
    (parse : String → Option OrchestrationMemory) (nowMs : Nat) (nowIso : String)
    (h : fileContents = none ∨ ∃ s, fileContents = some s ∧ parse s = none) :
    loadOrchestrationMemory fileContents parse nowMs nowIso = freshMemory nowMs nowIso ∧
    (loadOrchestrationMemory fileContents parse nowMs nowIso).totalInteractions = 0 ∧
    (loadOrchestrationMemory fileContents parse nowMs nowIso).conversationHistory = [] := by
  have hf : loadOrchestrationMemory fileContents parse nowMs nowIso =
      freshMemory nowMs nowIso := by
    rcases h with h | ⟨s, hs, hp⟩
    · simp [loadOrchestrationMemory, h]
    · simp [loadOrchestrationMemory, hs, hp]
  exact ⟨hf, by rw [hf]; rfl, by rw [hf]; rfl⟩

/-- Witness for C10 at an absent session file. -/
theorem loadOrchestrationMemory_total_witness :
    loadOrchestrationMemory none (fun _ => none) 0 "t0" = freshMemory 0 "t0" ∧
    (loadOrchestrationMemory none (fun _ => none) 0 "t0").totalInteractions = 0 :=
  ⟨(loadOrchestrationMemory_total none (fun _ => none) 0 "t0" (Or.inl rfl)).1,
   (loadOrchestrationMemory_total none (fun _ => none) 0 "t0" (Or.inl rfl)).2.1⟩
